import Mathlib

/-!
Shallow embedding of the payload-selection core of the ChatOnPage browser
extension (source: the background script).  JavaScript strings are modelled
as lists of Unicode scalar values; the machine behaviour the selector
relies on (String.prototype.trim, String.prototype.slice, truthiness of
strings, the nullish and or-else operators, encodeURIComponent) is embedded
explicitly below.  The local constants of createPageContext and the
branches of the buildProviderUrl switch are given individual names so that
each can be reasoned about separately.
-/

namespace ChatOnPage

/-- JavaScript strings, modelled as lists of Unicode scalar values. -/
abbrev Str := List Char

/-- Embeds a Lean string literal as a character list. -/
def str (s : String) : Str := s.data

/-- Whitespace test backing the embedded JavaScript trim.  The data handled
by the selector is plain text, for which the ASCII whitespace characters
below are the relevant ones. -/
def jsWhitespace (c : Char) : Bool :=
  c = ' ' || c = '\t' || c = '\n' || c = '\r' || c = '\x0b' || c = '\x0c'

/-- Embedded String.prototype.trim: drop whitespace from both ends. -/
def jsTrim (l : Str) : Str :=
  ((l.dropWhile jsWhitespace).reverse.dropWhile jsWhitespace).reverse

/-- Embedded or-else on strings: a || b yields b when a is empty (falsy). -/
def jsOrStr (a b : Str) : Str := if a.isEmpty then b else a

/-- MAX_Q from the source: selections longer than this are never sent raw. -/
def MAX_Q : Nat := 1500

/-- LONG_PAGE_THRESHOLD from the source: pages with more body text than
this are treated as long. -/
def LONG_PAGE_THRESHOLD : Nat := 4000

/-- Action enum of the source: the four context-menu / trigger actions. -/
inductive Action where
  | summary
  | translate
  | rewrite
  | followup
deriving DecidableEq

/-- LanguageInfo from the source: resolved UI language for translation. -/
structure LanguageInfo where
  code : Str
  displayName : Str
deriving DecidableEq

/-- BuildExtras from the source: optional extras for translate/followup. -/
structure BuildExtras where
  language : Option LanguageInfo
  followupQuestion : Option Str
deriving DecidableEq

/-- BrowserTab from the source (the fields the selector reads). -/
structure BrowserTab where
  id : Option Nat
  url : Option Str
  title : Option Str
deriving DecidableEq

/-- PageExtractionResult from the source: the page snapshot. -/
structure PageExtractionResult where
  success : Bool
  selection : Str
  pageTextLength : Nat
  title : Str
  url : Str
deriving DecidableEq

/-- PageContext from the source: the classification computed first. -/
structure PageContext where
  selection : Str
  truncatedSelection : Str
  hasSelection : Bool
  selectionIsShort : Bool
  selectionIsLong : Bool
  pageIsLong : Bool
  pageUrl : Option Str
  title : Str
deriving DecidableEq

/-- Local constant rawSelection of createPageContext: a failed or absent
extraction contributes no selection. -/
def rawSelection (pageInfo : Option PageExtractionResult) : Str :=
  match pageInfo with
  | some pi => if pi.success then pi.selection else []
  | none => []

/-- Local constant selection of createPageContext. -/
def selectionOf (pageInfo : Option PageExtractionResult) : Str :=
  jsTrim (rawSelection pageInfo)

/-- Local constant hasSelection of createPageContext. -/
def hasSelectionOf (pageInfo : Option PageExtractionResult) : Bool :=
  !(selectionOf pageInfo).isEmpty

/-- Local constant pageTextLength of createPageContext. -/
def pageTextLengthOf (pageInfo : Option PageExtractionResult) : Nat :=
  match pageInfo with
  | some pi => if pi.success then pi.pageTextLength else 0
  | none => 0

/-- Local constant selectionIsShort of createPageContext. -/
def selectionIsShortOf (pageInfo : Option PageExtractionResult) : Bool :=
  hasSelectionOf pageInfo && decide ((selectionOf pageInfo).length ≤ MAX_Q)

/-- Local constant selectionIsLong of createPageContext. -/
def selectionIsLongOf (pageInfo : Option PageExtractionResult) : Bool :=
  hasSelectionOf pageInfo && decide ((selectionOf pageInfo).length > MAX_Q)

/-- Local constant truncatedSelection of createPageContext: slice to MAX_Q
characters and trim again. -/
def truncatedSelectionOf (pageInfo : Option PageExtractionResult) : Str :=
  if selectionIsShortOf pageInfo then selectionOf pageInfo
  else jsTrim ((selectionOf pageInfo).take MAX_Q)

/-- Url contributed by the extraction itself (empty when failed/absent). -/
def extractedUrl (pageInfo : Option PageExtractionResult) : Str :=
  match pageInfo with
  | some pi => if pi.success then pi.url else []
  | none => []

/-- Local constant pageUrlCandidate of createPageContext: extraction url
or-else tab url or-else empty. -/
def pageUrlCandidate (pageInfo : Option PageExtractionResult) (tab : BrowserTab) : Str :=
  jsOrStr (extractedUrl pageInfo) (tab.url.getD [])

/-- Local constant pageUrl of createPageContext: the candidate is kept only
when non-empty and not blank. -/
def pageUrlOf (pageInfo : Option PageExtractionResult) (tab : BrowserTab) : Option Str :=
  if !(pageUrlCandidate pageInfo tab).isEmpty &&
      !(jsTrim (pageUrlCandidate pageInfo tab)).isEmpty then
    some (pageUrlCandidate pageInfo tab)
  else
    none

/-- Local constant titleCandidate of createPageContext: a successful
extraction's title is kept even when empty (nullish access), otherwise the
tab title. -/
def titleCandidate (pageInfo : Option PageExtractionResult) (tab : BrowserTab) : Str :=
  match pageInfo with
  | some pi => if pi.success then pi.title else tab.title.getD []
  | none => tab.title.getD []

/-- Local constant title of createPageContext. -/
def titleOf (pageInfo : Option PageExtractionResult) (tab : BrowserTab) : Str :=
  jsTrim (titleCandidate pageInfo tab)

/-- Local constant pageIsLong of createPageContext. -/
def pageIsLongOf (pageInfo : Option PageExtractionResult) : Bool :=
  (!hasSelectionOf pageInfo && decide (pageTextLengthOf pageInfo > LONG_PAGE_THRESHOLD)) ||
    selectionIsLongOf pageInfo

/-- createPageContext from the source, assembled from its local constants. -/
def createPageContext (pageInfo : Option PageExtractionResult) (tab : BrowserTab) :
    PageContext :=
  { selection := selectionOf pageInfo
    truncatedSelection := truncatedSelectionOf pageInfo
    hasSelection := hasSelectionOf pageInfo
    selectionIsShort := selectionIsShortOf pageInfo
    selectionIsLong := selectionIsLongOf pageInfo
    pageIsLong := pageIsLongOf pageInfo
    pageUrl := pageUrlOf pageInfo tab
    title := titleOf pageInfo tab }

/-- Summary branch of the buildProviderUrl switch. -/
def summaryPayload (context : PageContext) : Option Str :=
  if context.selectionIsShort then
    some context.selection
  else if context.pageIsLong then
    if (context.pageUrl.getD context.truncatedSelection).isEmpty &&
        !context.title.isEmpty then
      some (str "Summarize: " ++ context.title)
    else
      some (context.pageUrl.getD context.truncatedSelection)
  else
    match context.pageUrl with
    | some u =>
      if context.title.isEmpty then
        some (str "Summarize this page: " ++ u)
      else
        some (str "Summarize this page: " ++ context.title ++ str " " ++ u)
    | none =>
      if !context.truncatedSelection.isEmpty then
        some context.truncatedSelection
      else if !context.title.isEmpty then
        some (str "Summarize: " ++ context.title)
      else
        none

/-- Local constant languageLabel of the translate branch: display name
or-else code. -/
def languageLabelOf (language : LanguageInfo) : Str :=
  if language.displayName.isEmpty then language.code else language.displayName

/-- Translate branch of the buildProviderUrl switch, once a language was
resolved. -/
def translatePayload (context : PageContext) (language : LanguageInfo) : Option Str :=
  if context.selectionIsShort then
    some (str "Translate the following into " ++ languageLabelOf language ++ str ": " ++
      context.selection)
  else
    match context.pageUrl with
    | some u =>
      some (str "Translate this page into " ++ languageLabelOf language ++ str ": " ++ u)
    | none =>
      if context.hasSelection then
        some (str "Translate the following into " ++ languageLabelOf language ++
          str " (long content; partial excerpt): " ++ context.truncatedSelection)
      else if !context.title.isEmpty then
        some (str "Translate content related to \"" ++ context.title ++
          str "\" into " ++ languageLabelOf language ++ str ".")
      else
        some (str "Translate into " ++ languageLabelOf language ++ str ".")

/-- Rewrite branch of the buildProviderUrl switch. -/
def rewritePayload (context : PageContext) : Option Str :=
  if context.selectionIsShort then
    some (str "Rewrite and polish the following: " ++ context.selection)
  else
    match context.pageUrl with
    | some u =>
      if context.title.isEmpty then
        some (str "Rewrite and polish the key content of this page: " ++ u)
      else
        some (str "Read the page \"" ++ context.title ++
          str "\" and rewrite/polish its key content: " ++ u)
    | none =>
      if context.hasSelection then
        some (str "Rewrite and polish the following (long content; partial excerpt): " ++
          context.truncatedSelection)
      else if !context.title.isEmpty then
        some (str "Rewrite and polish content related to \"" ++ context.title ++
          str "\".")
      else
        none

/-- Followup branch of the buildProviderUrl switch, once the question was
found non-blank (already trimmed). -/
def followupPayload (context : PageContext) (question : Str) : Option Str :=
  if context.selectionIsShort then
    some (str "Here is relevant content: " ++ context.selection ++
      str "\nPlease answer my follow-up question based on it: " ++ question)
  else
    match context.pageUrl with
    | some u =>
      if context.title.isEmpty then
        some (str "Page: " ++ u ++
          str "\nPlease answer my follow-up question based on this page: " ++ question)
      else
        some (str "Page \"" ++ context.title ++ str "\": " ++ u ++
          str "\nPlease answer my follow-up question based on this page: " ++ question)
    | none =>
      if context.hasSelection then
        some (str "Here is relevant content (long content; partial excerpt): " ++
          context.truncatedSelection ++
          str "\nPlease answer my follow-up question based on it: " ++ question)
      else if !context.title.isEmpty then
        some (str "Please answer my follow-up question using information related to \"" ++
          context.title ++ str "\": " ++ question)
      else
        some question

/-- Final falsiness check of buildProviderUrl: a null or empty payload is a
terminal failure. -/
def finishPayload (payload : Option Str) : Option Str :=
  match payload with
  | none => none
  | some p => if p.isEmpty then none else some p

/-- Payload-selection step of buildProviderUrl from the source: the switch
over the action (with the early returns for a missing language and a
missing or blank follow-up question) followed by the final falsiness
check. -/
def selectPayload (pageInfo : Option PageExtractionResult) (tab : BrowserTab)
    (action : Action) (extras : BuildExtras) : Option Str :=
  let context := createPageContext pageInfo tab
  let payload : Option Str :=
    match action with
    | .summary => summaryPayload context
    | .translate =>
      match extras.language with
      | none => none
      | some language => translatePayload context language
    | .rewrite => rewritePayload context
    | .followup =>
      match extras.followupQuestion with
      | none => none
      | some q0 =>
        let question := jsTrim q0
        if question.isEmpty then none
        else followupPayload context question
  finishPayload payload

/-- PROVIDER_URLS record from the source, as the runtime string-indexed map
that the lookup expression reads. -/
def PROVIDER_URLS (provider : Str) : Option Str :=
  if provider = str "perplexity" then some (str "https://www.perplexity.ai/search?q=")
  else if provider = str "chatgpt" then some (str "https://chatgpt.com/?q=")
  else if provider = str "claude" then some (str "https://claude.ai/new?q=")
  else none

/-- Base-endpoint lookup of the source with its nullish fallback to the
perplexity endpoint for an unregistered provider. -/
def providerBaseUrl (provider : Str) : Str :=
  (PROVIDER_URLS provider).getD (str "https://www.perplexity.ai/search?q=")

/-- Unreserved characters of encodeURIComponent: ASCII letters, digits, and
the marks - _ . ! ~ * apostrophe ( ). -/
def unreservedURI (c : Char) : Bool :=
  let n := c.toNat
  decide (65 ≤ n ∧ n ≤ 90) || decide (97 ≤ n ∧ n ≤ 122) || decide (48 ≤ n ∧ n ≤ 57) ||
  decide (n = 45) || decide (n = 95) || decide (n = 46) || decide (n = 33) ||
  decide (n = 126) || decide (n = 42) || decide (n = 39) || decide (n = 40) ||
  decide (n = 41)

/-- UTF-8 encoding of one code point, as the list of its byte values. -/
def utf8Bytes (n : Nat) : List Nat :=
  if n < 128 then [n]
  else if n < 2048 then [192 + n / 64, 128 + n % 64]
  else if n < 65536 then [224 + n / 4096, 128 + n / 64 % 64, 128 + n % 64]
  else [240 + n / 262144, 128 + n / 4096 % 64, 128 + n / 64 % 64, 128 + n % 64]

/-- Uppercase hexadecimal digit for a value below 16. -/
def hexDigit (n : Nat) : Char :=
  if n < 10 then Char.ofNat (48 + n) else Char.ofNat (55 + n)

/-- Percent-escape of one byte, as produced by encodeURIComponent. -/
def pctByte (b : Nat) : Str := ['%', hexDigit (b / 16), hexDigit (b % 16)]

/-- Encoding of a single character: kept verbatim when unreserved, else the
percent-escapes of its UTF-8 bytes. -/
def encodeChar (c : Char) : Str :=
  if unreservedURI c then [c] else (utf8Bytes c.toNat).flatMap pctByte

/-- Embedded encodeURIComponent over the string model. -/
def encodeURIComponent (l : Str) : Str := l.flatMap encodeChar

/-- Value of a hexadecimal digit character, when it is one. -/
def hexVal (c : Char) : Option Nat :=
  let n := c.toNat
  if 48 ≤ n ∧ n ≤ 57 then some (n - 48)
  else if 65 ≤ n ∧ n ≤ 70 then some (n - 55)
  else if 97 ≤ n ∧ n ≤ 102 then some (n - 87)
  else none

/-- Percent-decoding pass: an escape contributes its byte, any other
character contributes its own code; a malformed escape fails. -/
def pctDecodeBytes : Str → Option (List Nat)
  | [] => some []
  | c :: rest =>
    if c = '%' then
      match rest with
      | [] => none
      | h :: rest1 =>
        match rest1 with
        | [] => none
        | lo :: rest' =>
          match hexVal h, hexVal lo, pctDecodeBytes rest' with
          | some a, some b, some bs => some ((16 * a + b) :: bs)
          | _, _, _ => none
    else
      (pctDecodeBytes rest).map (c.toNat :: ·)

/-- UTF-8 continuation-byte test. -/
def isCont (b : Nat) : Bool := decide (128 ≤ b ∧ b < 192)

/-- UTF-8 decoding of a byte list into code points. -/
def utf8Decode : List Nat → Option (List Nat)
  | [] => some []
  | b :: rest =>
    if b < 128 then
      (utf8Decode rest).map (b :: ·)
    else if b < 192 then
      none
    else
      match rest with
      | [] => none
      | b1 :: rest1 =>
        if b < 224 then
          if isCont b1 then
            (utf8Decode rest1).map ((64 * (b - 192) + (b1 - 128)) :: ·)
          else none
        else
          match rest1 with
          | [] => none
          | b2 :: rest2 =>
            if b < 240 then
              if isCont b1 && isCont b2 then
                (utf8Decode rest2).map
                  ((4096 * (b - 224) + 64 * (b1 - 128) + (b2 - 128)) :: ·)
              else none
            else
              match rest2 with
              | [] => none
              | b3 :: rest3 =>
                if b < 248 then
                  if isCont b1 && isCont b2 && isCont b3 then
                    (utf8Decode rest3).map
                      ((262144 * (b - 240) + 4096 * (b1 - 128) + 64 * (b2 - 128) +
                        (b3 - 128)) :: ·)
                  else none
                else none

/-- Code point to character, failing on invalid scalar values. -/
def charOfCodepoint (n : Nat) : Option Char :=
  if Nat.isValidChar n then some (Char.ofNat n) else none

/-- Conversion of a code-point list back into a string. -/
def charsOfCodepoints : List Nat → Option Str
  | [] => some []
  | n :: rest =>
    match charOfCodepoint n, charsOfCodepoints rest with
    | some c, some cs => some (c :: cs)
    | _, _ => none

/-- Embedded decodeURIComponent: percent-decode to bytes, UTF-8 decode to
code points, and rebuild the string. -/
def decodeURIComponent (l : Str) : Option Str :=
  match pctDecodeBytes l with
  | none => none
  | some bs =>
    match utf8Decode bs with
    | none => none
    | some cps => charsOfCodepoints cps

/-- Full buildProviderUrl from the source: base endpoint of the provider
followed by the percent-encoded payload, or null when no payload was
selected. -/
def buildProviderUrl (pageInfo : Option PageExtractionResult) (tab : BrowserTab)
    (provider : Str) (action : Action) (extras : BuildExtras) : Option Str :=
  (selectPayload pageInfo tab action extras).map
    (fun p => providerBaseUrl provider ++ encodeURIComponent p)

/-- Provider enum of the source settings. -/
inductive Provider where
  | perplexity
  | chatgpt
  | claude
deriving DecidableEq

/-- OpenMode enum of the source settings. -/
inductive OpenMode where
  | popup
  | tab
deriving DecidableEq

/-- Settings struct of the source. -/
structure Settings where
  provider : Provider
  openMode : OpenMode
deriving DecidableEq

/-- DEFAULT_SETTINGS from the source. -/
def DEFAULT_SETTINGS : Settings := { provider := .perplexity, openMode := .popup }

/-- Stored partial settings: each field is absent or an arbitrary string. -/
structure StoredSettings where
  provider : Option Str
  openMode : Option Str
deriving DecidableEq

/-- isProvider narrowing from the source, as a parser into the enum. -/
def parseProvider (s : Str) : Option Provider :=
  if s = str "perplexity" then some .perplexity
  else if s = str "chatgpt" then some .chatgpt
  else if s = str "claude" then some .claude
  else none

/-- isOpenMode narrowing from the source, as a parser into the enum. -/
def parseOpenMode (s : Str) : Option OpenMode :=
  if s = str "popup" then some .popup
  else if s = str "tab" then some .tab
  else none

/-- normalizeSettings from the source: keep each stored field when it is a
valid enum value, substitute the default otherwise. -/
def normalizeSettings (stored : StoredSettings) : Settings :=
  { provider := (stored.provider.bind parseProvider).getD DEFAULT_SETTINGS.provider
    openMode := (stored.openMode.bind parseOpenMode).getD DEFAULT_SETTINGS.openMode }

/-! Helper lemmas about the embedded string primitives. -/

theorem jsTrim_nil : jsTrim [] = [] := rfl

theorem dropWhile_eq_nil_of_forall {p : Char → Bool} {l : Str}
    (h : ∀ c ∈ l, p c = true) : l.dropWhile p = [] := by
  induction l with
  | nil => rfl
  | cons a t ih =>
    rw [List.dropWhile_cons, if_pos (h a (by simp))]
    exact ih fun c hc => h c (by simp [hc])

theorem dropWhile_eq_self_of_head {p : Char → Bool} {a : Char} (t : Str)
    (h : p a = false) : (a :: t).dropWhile p = a :: t := by
  rw [List.dropWhile_cons, h]
  simp

theorem dropWhile_eq_self_of_forall {p : Char → Bool} {l : Str}
    (h : ∀ c ∈ l, p c = false) : l.dropWhile p = l := by
  cases l with
  | nil => rfl
  | cons a t => exact dropWhile_eq_self_of_head t (h a (by simp))

theorem jsTrim_eq_nil_of_forall {l : Str} (h : ∀ c ∈ l, jsWhitespace c = true) :
    jsTrim l = [] := by
  unfold jsTrim
  rw [dropWhile_eq_nil_of_forall h]
  rfl

theorem jsTrim_eq_self_of_forall {l : Str} (h : ∀ c ∈ l, jsWhitespace c = false) :
    jsTrim l = l := by
  unfold jsTrim
  rw [dropWhile_eq_self_of_forall h,
    dropWhile_eq_self_of_forall fun c hc => h c (List.mem_reverse.mp hc),
    List.reverse_reverse]

theorem jsTrim_sublist (l : Str) : (jsTrim l).Sublist l := by
  unfold jsTrim
  refine List.Sublist.trans ?_ (List.dropWhile_sublist (l := l) jsWhitespace)
  have h2 := (List.dropWhile_sublist
    (l := (l.dropWhile jsWhitespace).reverse) jsWhitespace).reverse
  simpa using h2

theorem mem_of_mem_jsTrim {a : Char} {l : Str} (h : a ∈ jsTrim l) : a ∈ l :=
  List.Sublist.mem h (jsTrim_sublist l)

theorem jsTrim_length_le (l : Str) : (jsTrim l).length ≤ l.length :=
  (jsTrim_sublist l).length_le

theorem head_dropWhile_false {p : Char → Bool} {l : Str} {c : Char} {t : Str}
    (h : l.dropWhile p = c :: t) : p c = false := by
  induction l with
  | nil => simp at h
  | cons a t' ih =>
    rw [List.dropWhile_cons] at h
    by_cases hpa : p a = true
    · rw [if_pos hpa] at h
      exact ih h
    · rw [if_neg hpa] at h
      cases h
      simpa using hpa

theorem jsTrim_cons_of_not_ws {c : Char} (l : Str) (hc : jsWhitespace c = false) :
    ∃ t : Str, jsTrim (c :: l) = c :: t := by
  unfold jsTrim
  rw [dropWhile_eq_self_of_head l hc, List.reverse_cons, List.dropWhile_append]
  split
  · exact ⟨[], by rw [dropWhile_eq_self_of_head [] hc]; rfl⟩
  · exact ⟨(List.dropWhile jsWhitespace l.reverse).reverse, by
      rw [List.reverse_append]; rfl⟩

theorem jsTrim_head_not_ws {l : Str} {c : Char} {t : Str}
    (h : jsTrim l = c :: t) : jsWhitespace c = false := by
  rcases hd : l.dropWhile jsWhitespace with _ | ⟨c0, t0⟩
  · unfold jsTrim at h
    rw [hd] at h
    simp at h
  · have hc0 : jsWhitespace c0 = false := head_dropWhile_false hd
    obtain ⟨t', ht'⟩ := jsTrim_cons_of_not_ws t0 hc0
    have hstep : jsTrim l = jsTrim (c0 :: t0) := by
      unfold jsTrim
      rw [hd, dropWhile_eq_self_of_head t0 hc0]
    rw [hstep, ht'] at h
    cases h
    exact hc0

theorem isEmpty_append_left {a b : Str} (h : a.isEmpty = false) :
    (a ++ b).isEmpty = false := by
  cases a with
  | nil => simp at h
  | cons x t => rfl

theorem isEmpty_replicate_pos {n : Nat} (h : 0 < n) (a : Char) :
    (List.replicate n a).isEmpty = false := by
  cases n with
  | zero => omega
  | succ m => rfl

theorem finishPayload_eq_some {x : Option Str} {p : Str}
    (h : finishPayload x = some p) : x = some p := by
  cases x with
  | none => simp [finishPayload] at h
  | some q =>
    by_cases hq : q.isEmpty
    · simp [finishPayload, hq] at h
    · rw [finishPayload] at h
      simp only [hq] at h
      rw [if_neg (by simp [hq])] at h
      exact h

/-! Unfolding equations for selectPayload and the context projections. -/

theorem selectPayload_summary (pageInfo : Option PageExtractionResult)
    (tab : BrowserTab) (extras : BuildExtras) :
    selectPayload pageInfo tab .summary extras =
      finishPayload (summaryPayload (createPageContext pageInfo tab)) := rfl

theorem selectPayload_translate (pageInfo : Option PageExtractionResult)
    (tab : BrowserTab) (extras : BuildExtras) :
    selectPayload pageInfo tab .translate extras =
      finishPayload (match extras.language with
        | none => none
        | some language => translatePayload (createPageContext pageInfo tab) language) := rfl

theorem selectPayload_rewrite (pageInfo : Option PageExtractionResult)
    (tab : BrowserTab) (extras : BuildExtras) :
    selectPayload pageInfo tab .rewrite extras =
      finishPayload (rewritePayload (createPageContext pageInfo tab)) := rfl

theorem selectPayload_followup (pageInfo : Option PageExtractionResult)
    (tab : BrowserTab) (extras : BuildExtras) :
    selectPayload pageInfo tab .followup extras =
      finishPayload (match extras.followupQuestion with
        | none => none
        | some q0 =>
          if (jsTrim q0).isEmpty then none
          else followupPayload (createPageContext pageInfo tab) (jsTrim q0)) := rfl

theorem ctx_selection (pageInfo : Option PageExtractionResult) (tab : BrowserTab) :
    (createPageContext pageInfo tab).selection = selectionOf pageInfo := rfl

theorem ctx_truncated (pageInfo : Option PageExtractionResult) (tab : BrowserTab) :
    (createPageContext pageInfo tab).truncatedSelection = truncatedSelectionOf pageInfo := rfl

theorem ctx_hasSelection (pageInfo : Option PageExtractionResult) (tab : BrowserTab) :
    (createPageContext pageInfo tab).hasSelection = hasSelectionOf pageInfo := rfl

theorem ctx_selectionIsShort (pageInfo : Option PageExtractionResult) (tab : BrowserTab) :
    (createPageContext pageInfo tab).selectionIsShort = selectionIsShortOf pageInfo := rfl

theorem ctx_selectionIsLong (pageInfo : Option PageExtractionResult) (tab : BrowserTab) :
    (createPageContext pageInfo tab).selectionIsLong = selectionIsLongOf pageInfo := rfl

theorem ctx_pageIsLong (pageInfo : Option PageExtractionResult) (tab : BrowserTab) :
    (createPageContext pageInfo tab).pageIsLong = pageIsLongOf pageInfo := rfl

theorem ctx_pageUrl (pageInfo : Option PageExtractionResult) (tab : BrowserTab) :
    (createPageContext pageInfo tab).pageUrl = pageUrlOf pageInfo tab := rfl

theorem ctx_title (pageInfo : Option PageExtractionResult) (tab : BrowserTab) :
    (createPageContext pageInfo tab).title = titleOf pageInfo tab := rfl

/-- Claim C7: the followup action with an empty or whitespace-only question
yields null, whatever selection, URL or title context is available. -/
theorem c7_blank_followup_null (pageInfo : Option PageExtractionResult)
    (tab : BrowserTab) (lang : Option LanguageInfo) (q : Str)
    (hq : jsTrim q = []) :
    selectPayload pageInfo tab .followup ⟨lang, some q⟩ = none := by
  rw [selectPayload_followup]
  simp [hq, finishPayload]

/-- Witness for C7 at a whitespace-only question. -/
theorem c7_blank_followup_null_witness :
    jsTrim (str "  ") = [] ∧
    selectPayload (some ⟨true, str "context", 0, str "T", str "u"⟩)
      ⟨none, none, none⟩ .followup ⟨none, some (str "  ")⟩ = none :=
  ⟨by decide, c7_blank_followup_null _ _ _ _ (by decide)⟩

/-- Claim C10: a snapshot whose success field is false produces exactly the
same result as an absent snapshot, for every tab fallback, provider, action
and extras: the failed snapshot's own fields are ignored. -/
theorem c10_failed_extraction_eq_absent (sel : Str) (n : Nat) (t u : Str)
    (tab : BrowserTab) (provider : Str) (action : Action) (extras : BuildExtras) :
    buildProviderUrl (some ⟨false, sel, n, t, u⟩) tab provider action extras =
      buildProviderUrl none tab provider action extras := rfl

/-- Claim C9: normalize of the empty store yields the default settings;
a bogus provider is discarded while a valid openMode is preserved; in
general each field is kept exactly when it parses as its enum and replaced
by its default otherwise (the function is total, so it never throws). -/
theorem c9_normalize_settings :
    normalizeSettings ⟨none, none⟩ = DEFAULT_SETTINGS ∧
    (∀ m om, parseOpenMode m = some om →
      normalizeSettings ⟨some (str "bogus"), some m⟩ = ⟨.perplexity, om⟩) ∧
    (∀ st s p, st.provider = some s → parseProvider s = some p →
      (normalizeSettings st).provider = p) ∧
    (∀ st s, st.provider = some s → parseProvider s = none →
      (normalizeSettings st).provider = .perplexity) ∧
    (∀ st, st.provider = none → (normalizeSettings st).provider = .perplexity) ∧
    (∀ st s m, st.openMode = some s → parseOpenMode s = some m →
      (normalizeSettings st).openMode = m) ∧
    (∀ st s, st.openMode = some s → parseOpenMode s = none →
      (normalizeSettings st).openMode = .popup) ∧
    (∀ st, st.openMode = none → (normalizeSettings st).openMode = .popup) := by
  refine ⟨rfl, ?_, ?_, ?_, ?_, ?_, ?_, ?_⟩
  · intro m om h
    simp [normalizeSettings, h, (by decide : parseProvider (str "bogus") = none),
      DEFAULT_SETTINGS]
  · intro st s p h hp
    simp [normalizeSettings, h, hp]
  · intro st s h hp
    simp [normalizeSettings, h, hp, DEFAULT_SETTINGS]
  · intro st h
    simp [normalizeSettings, h, DEFAULT_SETTINGS]
  · intro st s m h hm
    simp [normalizeSettings, h, hm]
  · intro st s h hm
    simp [normalizeSettings, h, hm, DEFAULT_SETTINGS]
  · intro st h
    simp [normalizeSettings, h, DEFAULT_SETTINGS]

/-- Witness for C9 at the stored pair (bogus provider, valid tab mode). -/
theorem c9_normalize_settings_witness :
    normalizeSettings ⟨some (str "bogus"), some (str "tab")⟩ =
      ⟨.perplexity, .tab⟩ :=
  c9_normalize_settings.2.1 (str "tab") .tab (by decide)

/-- Counterexample to C1 as stated: the snapshot selection consisting of a
single space has length at most 1500, yet the summary payload is the
title-and-url phrase, not the selection verbatim. -/
theorem c1_counterexample :
    (str " ").length ≤ 1500 ∧
    selectPayload (some ⟨true, str " ", 0, str "Doc", str "https://x.test/a"⟩)
        ⟨none, none, none⟩ .summary ⟨none, none⟩ =
      some (str "Summarize this page: Doc https://x.test/a") ∧
    selectPayload (some ⟨true, str " ", 0, str "Doc", str "https://x.test/a"⟩)
        ⟨none, none, none⟩ .summary ⟨none, none⟩ ≠ some (str " ") := by
  refine ⟨by decide, by decide, by decide⟩

/-- Claim C1 (amended): for every snapshot whose extraction succeeded and
whose selection trims to a non-empty string of length at most 1500, the
summary payload is that trimmed selection. -/
theorem c1_short_selection_verbatim (r : PageExtractionResult) (tab : BrowserTab)
    (extras : BuildExtras) (hs : r.success = true)
    (hne : jsTrim r.selection ≠ []) (hlen : (jsTrim r.selection).length ≤ 1500) :
    selectPayload (some r) tab .summary extras = some (jsTrim r.selection) := by
  have hsel : selectionOf (some r) = jsTrim r.selection := by
    simp [selectionOf, rawSelection, hs]
  have hempty : (jsTrim r.selection).isEmpty = false := by
    cases h : jsTrim r.selection with
    | nil => exact absurd h hne
    | cons a t => rfl
  have hshort : selectionIsShortOf (some r) = true := by
    simp [selectionIsShortOf, hasSelectionOf, hsel, hempty, MAX_Q, hlen]
  rw [selectPayload_summary]
  rw [summaryPayload, ctx_selectionIsShort, hshort, if_pos rfl, ctx_selection, hsel]
  rw [finishPayload]
  simp [hempty]

/-- Witness for C1 (amended) at the Hello-world scenario. -/
theorem c1_short_selection_verbatim_witness :
    selectPayload (some ⟨true, str "Hello world", 0, [], []⟩)
        ⟨none, none, none⟩ .summary ⟨none, none⟩ = some (str "Hello world") := by
  have h := c1_short_selection_verbatim ⟨true, str "Hello world", 0, [], []⟩
    ⟨none, none, none⟩ ⟨none, none⟩ rfl (by decide) (by decide)
  simpa using h

/-- Counterexample to C4 as stated: with an empty effective URL, no
selection and no title, the translate action with a resolved language does
not return null but a language-only instruction. -/
theorem c4_counterexample :
    pageUrlOf none ⟨none, none, none⟩ = none ∧
    hasSelectionOf none = false ∧
    titleOf none ⟨none, none, none⟩ = [] ∧
    selectPayload none ⟨none, none, none⟩ .translate
        ⟨some ⟨str "fr", str "French"⟩, none⟩ =
      some (str "Translate into " ++ str "French" ++ str ".") := by
  refine ⟨rfl, rfl, rfl, by decide⟩

/-- Claim C4 (amended): when the effective URL is empty and neither a
selection nor a title is available, summary and rewrite return null; the
condition is not action-independent: translate returns null exactly when no
language was resolved, and followup exactly when the question is absent or
trims to nothing. -/
theorem c4_no_signal (pageInfo : Option PageExtractionResult) (tab : BrowserTab)
    (extras : BuildExtras)
    (hurl : pageUrlOf pageInfo tab = none)
    (hhas : hasSelectionOf pageInfo = false)
    (htitle : titleOf pageInfo tab = []) :
    selectPayload pageInfo tab .summary extras = none ∧
    selectPayload pageInfo tab .rewrite extras = none ∧
    (selectPayload pageInfo tab .translate extras = none ↔ extras.language = none) ∧
    (selectPayload pageInfo tab .followup extras = none ↔
      ∀ q, extras.followupQuestion = some q → jsTrim q = []) := by
  have hshort : selectionIsShortOf pageInfo = false := by
    simp [selectionIsShortOf, hhas]
  have hselnil : selectionOf pageInfo = [] := by
    cases hsel : selectionOf pageInfo with
    | nil => rfl
    | cons a t =>
      rw [hasSelectionOf, hsel] at hhas
      simp at hhas
  have htrunc : truncatedSelectionOf pageInfo = [] := by
    simp [truncatedSelectionOf, hshort, hselnil, jsTrim_nil]
  refine ⟨?_, ?_, ?_, ?_⟩
  · rw [selectPayload_summary, summaryPayload, ctx_selectionIsShort, ctx_pageIsLong,
      ctx_pageUrl, ctx_title, ctx_truncated, ctx_selection]
    cases hpl : pageIsLongOf pageInfo <;>
      simp [hshort, hurl, htitle, htrunc, finishPayload]
  · rw [selectPayload_rewrite, rewritePayload, ctx_selectionIsShort, ctx_pageUrl,
      ctx_title, ctx_hasSelection, ctx_truncated, ctx_selection]
    simp [hshort, hurl, htitle, hhas, finishPayload]
  · cases hl : extras.language with
    | none =>
      rw [selectPayload_translate]
      simp [hl, finishPayload]
    | some L =>
      rw [selectPayload_translate]
      simp only [hl]
      rw [translatePayload, ctx_selectionIsShort, ctx_pageUrl, ctx_title,
        ctx_hasSelection, ctx_selection, ctx_truncated]
      simp [hshort, hurl, htitle, hhas, finishPayload]
      intro h _
      exact absurd h (by decide)
  · cases hq : extras.followupQuestion with
    | none =>
      rw [selectPayload_followup]
      simp [hq, finishPayload]
    | some q0 =>
      rw [selectPayload_followup]
      simp only [hq]
      cases hnq : (jsTrim q0).isEmpty with
      | true =>
        have heq : jsTrim q0 = [] := by
          cases h : jsTrim q0 with
          | nil => rfl
          | cons a t => rw [h] at hnq; simp at hnq
        simp only [hnq, if_pos rfl, finishPayload]
        constructor
        · intro _ q hq'
          cases hq'
          exact heq
        · intro _
          rfl
      | false =>
        rw [followupPayload, ctx_selectionIsShort, ctx_pageUrl, ctx_title,
          ctx_hasSelection, ctx_selection, ctx_truncated]
        simp only [hshort, hurl, htitle, hhas, hnq]
        constructor
        · intro h
          simp [finishPayload, hnq] at h
        · intro h
          have : jsTrim q0 = [] := h q0 rfl
          rw [this] at hnq
          simp at hnq

/-- Witness for C4 (amended) at the all-empty snapshot and tab. -/
theorem c4_no_signal_witness :
    selectPayload none ⟨none, none, none⟩ .summary ⟨none, none⟩ = none ∧
    selectPayload none ⟨none, none, none⟩ .rewrite ⟨none, none⟩ = none ∧
    (selectPayload none ⟨none, none, none⟩ .translate ⟨none, none⟩ = none ↔
      (⟨none, none⟩ : BuildExtras).language = none) ∧
    (selectPayload none ⟨none, none, none⟩ .followup ⟨none, none⟩ = none ↔
      ∀ q, (⟨none, none⟩ : BuildExtras).followupQuestion = some q → jsTrim q = []) :=
  c4_no_signal none ⟨none, none, none⟩ ⟨none, none⟩ rfl rfl rfl

/-- Counterexample to C6 as stated: a tab URL that is non-empty but
whitespace-only does not rescue the selector; the summary action still
returns null. -/
theorem c6_counterexample :
    (str " ") ≠ [] ∧
    selectPayload none ⟨none, some (str " "), none⟩ .summary ⟨none, none⟩ = none := by
  refine ⟨by decide, by decide⟩

/-- Claim C6 (amended): when extraction failed (or no snapshot exists) and
the tab URL trims to a non-empty string, the selector still returns a
payload built from the tab's own URL/title for summary, rewrite, and
translate with a resolved language: no successful extraction is required. -/
theorem c6_tab_fallback_sufficient (pageInfo : Option PageExtractionResult)
    (tab : BrowserTab) (extras : BuildExtras) (L : LanguageInfo)
    (hfail : ∀ r, pageInfo = some r → r.success = false)
    (hurl : jsTrim (tab.url.getD []) ≠ []) :
    (∃ p, selectPayload pageInfo tab .summary extras = some p) ∧
    (∃ p, selectPayload pageInfo tab .rewrite extras = some p) ∧
    (extras.language = some L →
      ∃ p, selectPayload pageInfo tab .translate extras = some p) := by
  have hraw : rawSelection pageInfo = [] := by
    cases hp : pageInfo with
    | none => rfl
    | some r =>
      have := hfail r hp
      simp [rawSelection, this]
  have hselnil : selectionOf pageInfo = [] := by
    simp [selectionOf, hraw, jsTrim_nil]
  have hhas : hasSelectionOf pageInfo = false := by
    simp [hasSelectionOf, hselnil]
  have hshort : selectionIsShortOf pageInfo = false := by
    simp [selectionIsShortOf, hhas]
  have hexurl : extractedUrl pageInfo = [] := by
    cases hp : pageInfo with
    | none => rfl
    | some r =>
      have := hfail r hp
      simp [extractedUrl, this]
  have hcand : pageUrlCandidate pageInfo tab = tab.url.getD [] := by
    simp [pageUrlCandidate, hexurl, jsOrStr]
  have hcne : (tab.url.getD []).isEmpty = false := by
    cases h : tab.url.getD [] with
    | nil => rw [h] at hurl; exact absurd jsTrim_nil hurl
    | cons a t => rfl
  have htne : (jsTrim (tab.url.getD [])).isEmpty = false := by
    cases h : jsTrim (tab.url.getD []) with
    | nil => exact absurd h hurl
    | cons a t => rfl
  have hpu : pageUrlOf pageInfo tab = some (tab.url.getD []) := by
    rw [pageUrlOf, hcand]
    simp [hcne, htne]
  have hptl : pageTextLengthOf pageInfo = 0 := by
    cases hp : pageInfo with
    | none => rfl
    | some r =>
      have := hfail r hp
      simp [pageTextLengthOf, this]
  have hlong : pageIsLongOf pageInfo = false := by
    simp [pageIsLongOf, hptl, selectionIsLongOf, hhas, LONG_PAGE_THRESHOLD]
  refine ⟨?_, ?_, ?_⟩
  · rw [selectPayload_summary, summaryPayload, ctx_selectionIsShort, ctx_pageIsLong,
      ctx_pageUrl, ctx_title, ctx_truncated, ctx_selection]
    by_cases ht : (titleOf pageInfo tab).isEmpty = true
    · refine ⟨str "Summarize this page: " ++ tab.url.getD [], ?_⟩
      simp [hshort, hlong, hpu, ht, finishPayload]
      intro h
      exact absurd h (by decide)
    · refine ⟨str "Summarize this page: " ++ titleOf pageInfo tab ++ str " " ++
        tab.url.getD [], ?_⟩
      simp [hshort, hlong, hpu, ht, finishPayload]
      intro h
      exact absurd h (by decide)
  · rw [selectPayload_rewrite, rewritePayload, ctx_selectionIsShort, ctx_pageUrl,
      ctx_title, ctx_hasSelection, ctx_truncated, ctx_selection]
    by_cases ht : (titleOf pageInfo tab).isEmpty = true
    · refine ⟨str "Rewrite and polish the key content of this page: " ++
        tab.url.getD [], ?_⟩
      simp [hshort, hpu, ht, finishPayload]
      intro h
      exact absurd h (by decide)
    · refine ⟨str "Read the page \"" ++ titleOf pageInfo tab ++
        str "\" and rewrite/polish its key content: " ++ tab.url.getD [], ?_⟩
      simp [hshort, hpu, ht, finishPayload]
      intro h
      exact absurd h (by decide)
  · intro hl
    rw [selectPayload_translate]
    simp only [hl]
    rw [translatePayload, ctx_selectionIsShort, ctx_pageUrl]
    refine ⟨str "Translate this page into " ++ languageLabelOf L ++ str ": " ++
      tab.url.getD [], ?_⟩
    simp [hshort, hpu, finishPayload]
    intro h
    exact absurd h (by decide)

/-- Witness for C6 (amended) at an absent snapshot with a real tab URL. -/
theorem c6_tab_fallback_sufficient_witness :
    (∃ p, selectPayload none ⟨none, some (str "https://x.test/a"), none⟩ .summary
      ⟨some ⟨str "fr", str "French"⟩, none⟩ = some p) ∧
    (∃ p, selectPayload none ⟨none, some (str "https://x.test/a"), none⟩ .rewrite
      ⟨some ⟨str "fr", str "French"⟩, none⟩ = some p) ∧
    ((⟨some ⟨str "fr", str "French"⟩, none⟩ : BuildExtras).language =
        some ⟨str "fr", str "French"⟩ →
      ∃ p, selectPayload none ⟨none, some (str "https://x.test/a"), none⟩ .translate
        ⟨some ⟨str "fr", str "French"⟩, none⟩ = some p) :=
  c6_tab_fallback_sufficient none ⟨none, some (str "https://x.test/a"), none⟩
    ⟨some ⟨str "fr", str "French"⟩, none⟩ ⟨str "fr", str "French"⟩
    (fun r h => by cases h) (by decide)

theorem pageUrlOf_some_not_empty {pageInfo : Option PageExtractionResult}
    {tab : BrowserTab} {u : Str} (h : pageUrlOf pageInfo tab = some u) :
    u.isEmpty = false := by
  by_cases hc : (!(pageUrlCandidate pageInfo tab).isEmpty &&
      !(jsTrim (pageUrlCandidate pageInfo tab)).isEmpty) = true
  · rw [pageUrlOf, if_pos hc] at h
    cases h
    simp at hc
    simpa using hc.1
  · rw [pageUrlOf, if_neg hc] at h
    cases h

theorem jsTrim_eq_self_cons_append {c d : Char} (m : Str)
    (hc : jsWhitespace c = false) (hd : jsWhitespace d = false) :
    jsTrim (c :: (m ++ [d])) = c :: (m ++ [d]) := by
  unfold jsTrim
  rw [dropWhile_eq_self_of_head _ hc]
  have hrev : (c :: (m ++ [d])).reverse = d :: (m.reverse ++ [c]) := by simp
  rw [hrev, dropWhile_eq_self_of_head _ hd, ← hrev, List.reverse_reverse]

theorem summary_blank_selection_long_page (sel ttl : Str) (n : Nat)
    (h1 : jsTrim sel = []) (h2 : jsTrim ttl = ttl) (h3 : ttl.isEmpty = false)
    (h4 : 4000 < n) :
    selectPayload (some ⟨true, sel, n, ttl, []⟩) ⟨none, none, none⟩ .summary
      ⟨none, none⟩ = some (str "Summarize: " ++ ttl) := by
  have hsel : selectionOf (some ⟨true, sel, n, ttl, []⟩) = [] := by
    rw [selectionOf, show rawSelection (some ⟨true, sel, n, ttl, []⟩) = sel from rfl, h1]
  have hhas : hasSelectionOf (some ⟨true, sel, n, ttl, []⟩) = false := by
    rw [hasSelectionOf, hsel]
    rfl
  have hshort : selectionIsShortOf (some ⟨true, sel, n, ttl, []⟩) = false := by
    rw [selectionIsShortOf, hhas]
    rfl
  have hlongsel : selectionIsLongOf (some ⟨true, sel, n, ttl, []⟩) = false := by
    rw [selectionIsLongOf, hhas]
    rfl
  have htrunc : truncatedSelectionOf (some ⟨true, sel, n, ttl, []⟩) = [] := by
    rw [truncatedSelectionOf, if_neg (by rw [hshort]; simp), hsel]
    rfl
  have hpl : pageIsLongOf (some ⟨true, sel, n, ttl, []⟩) = true := by
    rw [pageIsLongOf, hhas, hlongsel,
      show pageTextLengthOf (some ⟨true, sel, n, ttl, []⟩) = n from rfl]
    simp [LONG_PAGE_THRESHOLD, h4]
  have hpu : pageUrlOf (some ⟨true, sel, n, ttl, []⟩) ⟨none, none, none⟩ = none := rfl
  have htitle : titleOf (some ⟨true, sel, n, ttl, []⟩) ⟨none, none, none⟩ = ttl := by
    rw [titleOf,
      show titleCandidate (some ⟨true, sel, n, ttl, []⟩) ⟨none, none, none⟩ = ttl from rfl,
      h2]
  rw [selectPayload_summary, summaryPayload, ctx_selectionIsShort, ctx_pageIsLong,
    ctx_pageUrl, ctx_title, ctx_truncated]
  rw [hshort, hpl, hpu, htrunc, htitle]
  simp [finishPayload, h3]
  intro h
  exact absurd h (by decide)

/-- Counterexample to C2 as stated: a snapshot whose raw selection is 1501
spaces (length above 1500) on a long page with no URL and a huge title
makes summary return the title phrase, which is neither the effective page
URL (there is none) nor a string of length at most 1500. -/
theorem c2_counterexample :
    1500 < (List.replicate 1501 ' ').length ∧
    selectPayload
        (some ⟨true, List.replicate 1501 ' ', 5000, List.replicate 1600 'T', []⟩)
        ⟨none, none, none⟩ .summary ⟨none, none⟩ =
      some (str "Summarize: " ++ List.replicate 1600 'T') ∧
    1500 < (str "Summarize: " ++ List.replicate 1600 'T').length ∧
    pageUrlOf (some ⟨true, List.replicate 1501 ' ', 5000, List.replicate 1600 'T', []⟩)
      ⟨none, none, none⟩ = none := by
  have e1 : jsTrim (List.replicate 1501 ' ') = [] :=
    jsTrim_eq_nil_of_forall fun c hc => by rw [List.eq_of_mem_replicate hc]; rfl
  have e2 : jsTrim (List.replicate 1600 'T') = List.replicate 1600 'T' :=
    jsTrim_eq_self_of_forall fun c hc => by rw [List.eq_of_mem_replicate hc]; rfl
  have h3 : (List.replicate 1600 'T').isEmpty = false :=
    isEmpty_replicate_pos (by norm_num) 'T'
  refine ⟨?_,
    summary_blank_selection_long_page _ _ _ e1 e2 h3 (by norm_num), ?_, rfl⟩
  · rw [List.length_replicate]
    norm_num
  · rw [List.length_append, List.length_replicate,
      show (str "Summarize: ").length = 11 from by decide]
    norm_num

/-- Claim C2 (amended): for every snapshot whose extraction succeeded and
whose selection trims to a string longer than 1500 characters, the summary
payload exists and is either the effective page URL or a string of length
at most 1500 (never the raw untruncated selection). -/
theorem c2_long_selection_payload (r : PageExtractionResult) (tab : BrowserTab)
    (extras : BuildExtras) (hs : r.success = true)
    (hlen : 1500 < (jsTrim r.selection).length) :
    ∃ p, selectPayload (some r) tab .summary extras = some p ∧
      (pageUrlOf (some r) tab = some p ∨ p.length ≤ 1500) := by
  have hsel : selectionOf (some r) = jsTrim r.selection := by
    rw [selectionOf, show rawSelection (some r) = if r.success then r.selection else []
      from rfl, hs]
    rfl
  obtain ⟨c, t, hct⟩ : ∃ c t, jsTrim r.selection = c :: t := by
    cases h : jsTrim r.selection with
    | nil => rw [h] at hlen; simp at hlen
    | cons a t => exact ⟨a, t, rfl⟩
  have hc : jsWhitespace c = false := jsTrim_head_not_ws hct
  have hhas : hasSelectionOf (some r) = true := by
    rw [hasSelectionOf, hsel, hct]
    rfl
  have hnotshort : ¬((jsTrim r.selection).length ≤ 1500) := by omega
  have hshort : selectionIsShortOf (some r) = false := by
    rw [selectionIsShortOf, hhas, hsel]
    simp [MAX_Q, hnotshort]
  have hlongsel : selectionIsLongOf (some r) = true := by
    rw [selectionIsLongOf, hhas, hsel]
    simp [MAX_Q]
    omega
  have hpl : pageIsLongOf (some r) = true := by
    rw [pageIsLongOf, hlongsel]
    simp
  have htake : (jsTrim r.selection).take 1500 = c :: t.take 1499 := by
    rw [hct]
    rfl
  obtain ⟨t', ht'⟩ := jsTrim_cons_of_not_ws (t.take 1499) hc
  have htr : truncatedSelectionOf (some r) = c :: t' := by
    rw [truncatedSelectionOf, if_neg (by rw [hshort]; simp), hsel]
    show jsTrim ((jsTrim r.selection).take 1500) = c :: t'
    rw [htake, ht']
  have htrlen : (truncatedSelectionOf (some r)).length ≤ 1500 := by
    rw [truncatedSelectionOf, if_neg (by rw [hshort]; simp), hsel]
    have h1 := jsTrim_length_le ((jsTrim r.selection).take MAX_Q)
    have h2 : ((jsTrim r.selection).take MAX_Q).length ≤ 1500 := by
      rw [List.length_take]
      have h3 : MAX_Q = 1500 := rfl
      omega
    omega
  rcases hpu : pageUrlOf (some r) tab with _ | u
  · refine ⟨c :: t', ?_, Or.inr ?_⟩
    · rw [selectPayload_summary, summaryPayload, ctx_selectionIsShort, ctx_pageIsLong,
        ctx_pageUrl, ctx_title, ctx_truncated]
      rw [hshort, hpl, hpu, htr]
      simp [finishPayload]
    · rw [htr] at htrlen
      exact htrlen
  · refine ⟨u, ?_, Or.inl rfl⟩
    rw [selectPayload_summary, summaryPayload, ctx_selectionIsShort, ctx_pageIsLong,
      ctx_pageUrl, ctx_title, ctx_truncated]
    rw [hshort, hpl, hpu]
    have hu : u.isEmpty = false := pageUrlOf_some_not_empty hpu
    simp [finishPayload, hu]

/-- Witness for C2 (amended) at a 1501-character selection of a single
repeated letter. -/
theorem c2_long_selection_payload_witness :
    ∃ p, selectPayload (some ⟨true, List.replicate 1501 'x', 0, [], []⟩)
        ⟨none, none, none⟩ .summary ⟨none, none⟩ = some p ∧
      (pageUrlOf (some ⟨true, List.replicate 1501 'x', 0, [], []⟩)
          ⟨none, none, none⟩ = some p ∨ p.length ≤ 1500) :=
  c2_long_selection_payload ⟨true, List.replicate 1501 'x', 0, [], []⟩
    ⟨none, none, none⟩ ⟨none, none⟩ rfl (by
      rw [jsTrim_eq_self_of_forall fun c hc => by
        rw [List.eq_of_mem_replicate hc]; rfl, List.length_replicate]
      norm_num)

theorem translate_partial_excerpt (r : PageExtractionResult) (tab : BrowserTab)
    (q : Option Str) (L : LanguageInfo) (hs : r.success = true)
    (hlen : 1500 < (jsTrim r.selection).length)
    (hpu : pageUrlOf (some r) tab = none) :
    selectPayload (some r) tab .translate ⟨some L, q⟩ =
      some (str "Translate the following into " ++ languageLabelOf L ++
        str " (long content; partial excerpt): " ++
        jsTrim ((jsTrim r.selection).take 1500)) := by
  have hsel : selectionOf (some r) = jsTrim r.selection := by
    rw [selectionOf, show rawSelection (some r) = if r.success then r.selection else []
      from rfl, hs]
    rfl
  obtain ⟨c, t, hct⟩ : ∃ c t, jsTrim r.selection = c :: t := by
    cases h : jsTrim r.selection with
    | nil => rw [h] at hlen; simp at hlen
    | cons a t => exact ⟨a, t, rfl⟩
  have hhas : hasSelectionOf (some r) = true := by
    rw [hasSelectionOf, hsel, hct]
    rfl
  have hnotshort : ¬((jsTrim r.selection).length ≤ 1500) := by omega
  have hshort : selectionIsShortOf (some r) = false := by
    rw [selectionIsShortOf, hhas, hsel]
    simp [MAX_Q, hnotshort]
  have htr : truncatedSelectionOf (some r) =
      jsTrim ((jsTrim r.selection).take 1500) := by
    rw [truncatedSelectionOf, if_neg (by rw [hshort]; simp), hsel]
    rfl
  rw [selectPayload_translate]
  show finishPayload (translatePayload (createPageContext (some r) tab) L) = _
  rw [translatePayload, ctx_selectionIsShort, ctx_pageUrl, ctx_hasSelection,
    ctx_selection, ctx_truncated]
  rw [hshort, hpu, hhas, htr]
  simp [finishPayload]
  intro h
  exact absurd h (by decide)

/-- Claim C8 (amended): for a successfully extracted selection trimming to
more than 1500 characters with no effective URL, translate with a resolved
language returns the partial-excerpt phrase whose excerpt is the trimmed
first 1500 characters of the trimmed selection (the code capitalises the
phrase and re-trims the slice, unlike the literal scenario text). -/
theorem c8_long_translate (r : PageExtractionResult) (tab : BrowserTab)
    (q : Option Str) (L : LanguageInfo) (hs : r.success = true)
    (hlen : 1500 < (jsTrim r.selection).length)
    (hpu : pageUrlOf (some r) tab = none) :
    selectPayload (some r) tab .translate ⟨some L, q⟩ =
      some (str "Translate the following into " ++ languageLabelOf L ++
        str " (long content; partial excerpt): " ++
        jsTrim ((jsTrim r.selection).take 1500)) :=
  translate_partial_excerpt r tab q L hs hlen hpu

/-- Witness for C8 (amended) at a 1501-character selection and the French
language pair. -/
theorem c8_long_translate_witness :
    selectPayload (some ⟨true, List.replicate 1501 'x', 0, [], []⟩)
        ⟨none, none, none⟩ .translate ⟨some ⟨str "fr", str "French"⟩, none⟩ =
      some (str "Translate the following into " ++
        languageLabelOf ⟨str "fr", str "French"⟩ ++
        str " (long content; partial excerpt): " ++
        jsTrim ((jsTrim (List.replicate 1501 'x')).take 1500)) :=
  c8_long_translate ⟨true, List.replicate 1501 'x', 0, [], []⟩ ⟨none, none, none⟩
    none ⟨str "fr", str "French"⟩ rfl
    (by
      rw [jsTrim_eq_self_of_forall fun c hc => by
        rw [List.eq_of_mem_replicate hc]; rfl, List.length_replicate]
      norm_num)
    rfl

/-- Counterexample to C8 as stated: on a 2000-character selection whose
1500th character is a space, the code's payload capitalises the phrase and
trims the sliced excerpt, so it differs from the scenario's literal
"translate the following into French ...: " followed by the raw first 1500
characters (the two strings do not even have the same length). -/
theorem c8_counterexample :
    (List.replicate 1499 'a' ++ ' ' :: List.replicate 500 'b').length = 2000 ∧
    selectPayload
        (some ⟨true, List.replicate 1499 'a' ++ ' ' :: List.replicate 500 'b',
          0, [], []⟩)
        ⟨none, none, none⟩ .translate ⟨some ⟨str "fr", str "French"⟩, none⟩ =
      some (str "Translate the following into " ++ str "French" ++
        str " (long content; partial excerpt): " ++ List.replicate 1499 'a') ∧
    str "Translate the following into " ++ str "French" ++
        str " (long content; partial excerpt): " ++ List.replicate 1499 'a' ≠
      str "translate the following into French (long content; partial excerpt): " ++
        (List.replicate 1499 'a' ++ ' ' :: List.replicate 500 'b').take 1500 := by
  have h1499 : List.replicate 1499 'a' = 'a' :: List.replicate 1498 'a' := rfl
  have h500 : List.replicate 500 'b' = List.replicate 499 'b' ++ ['b'] := by
    rw [← List.replicate_succ']
  have hform : List.replicate 1499 'a' ++ ' ' :: List.replicate 500 'b' =
      'a' :: ((List.replicate 1498 'a' ++ ' ' :: List.replicate 499 'b') ++ ['b']) := by
    rw [h500, h1499]
    rw [List.cons_append, List.append_assoc, List.cons_append]
  have f2 : jsTrim (List.replicate 1499 'a' ++ ' ' :: List.replicate 500 'b') =
      List.replicate 1499 'a' ++ ' ' :: List.replicate 500 'b' := by
    rw [hform]
    exact jsTrim_eq_self_cons_append _ (by decide) (by decide)
  have f4 : (List.replicate 1499 'a' ++ ' ' :: List.replicate 500 'b').take 1500 =
      List.replicate 1499 'a' ++ [' '] := by
    rw [List.take_append_eq_append_take, List.take_replicate, List.length_replicate]
    norm_num
  have f5 : jsTrim (List.replicate 1499 'a' ++ [' ']) = List.replicate 1499 'a' := by
    unfold jsTrim
    have d1 : (List.replicate 1499 'a' ++ [' ']).dropWhile jsWhitespace =
        List.replicate 1499 'a' ++ [' '] := by
      rw [show List.replicate 1499 'a' ++ [' '] =
        'a' :: (List.replicate 1498 'a' ++ [' ']) from by rw [h1499]; rfl]
      exact dropWhile_eq_self_of_head _ (by decide)
    rw [d1, List.reverse_append, show ([' '] : Str).reverse = [' '] from rfl,
      List.reverse_replicate, List.singleton_append, List.dropWhile_cons,
      if_pos (by decide),
      dropWhile_eq_self_of_forall fun c hc => by
        rw [List.eq_of_mem_replicate hc]; decide]
    exact List.reverse_replicate 1499 'a'
  have hlen : 1500 <
      (jsTrim (List.replicate 1499 'a' ++ ' ' :: List.replicate 500 'b')).length := by
    rw [f2, List.length_append, List.length_replicate, List.length_cons,
      List.length_replicate]
    norm_num
  have hmain := translate_partial_excerpt
    ⟨true, List.replicate 1499 'a' ++ ' ' :: List.replicate 500 'b', 0, [], []⟩
    ⟨none, none, none⟩ none ⟨str "fr", str "French"⟩ rfl hlen rfl
  refine ⟨?_, ?_, ?_⟩
  · rw [List.length_append, List.length_replicate, List.length_cons,
      List.length_replicate]
  · refine hmain.trans ?_
    show some (str "Translate the following into " ++
        languageLabelOf ⟨str "fr", str "French"⟩ ++
        str " (long content; partial excerpt): " ++
        jsTrim ((jsTrim (List.replicate 1499 'a' ++ ' ' ::
          List.replicate 500 'b')).take 1500)) = _
    rw [show languageLabelOf ⟨str "fr", str "French"⟩ = str "French" from rfl,
      f2, f4, f5]
  · intro h
    have hlenEq := congrArg List.length h
    rw [f4] at hlenEq
    simp only [List.length_append, List.length_replicate, List.length_cons,
      List.length_nil] at hlenEq
    rw [show (str "Translate the following into ").length = 29 from by decide,
      show (str "French").length = 6 from by decide,
      show (str " (long content; partial excerpt): ").length = 34 from by decide,
      show (str "translate the following into French (long content; partial excerpt): ").length = 69
        from by decide] at hlenEq
    omega

theorem not_mem_append {a : Char} {x y : Str} (hx : a ∉ x) (hy : a ∉ y) :
    a ∉ x ++ y := by
  intro hm
  rcases List.mem_append.mp hm with h | h
  · exact hx h
  · exact hy h

/-- Counterexample to C5 as stated: a selection containing an embedded
newline is returned verbatim by summary, so a non-followup payload can
contain a newline. -/
theorem c5_counterexample :
    selectPayload (some ⟨true, str "a\nb", 0, [], []⟩) ⟨none, none, none⟩ .summary
      ⟨none, none⟩ = some (str "a\nb") ∧
    '\n' ∈ str "a\nb" ∧
    Action.summary ≠ Action.followup := by
  refine ⟨by decide, by decide, by decide⟩

theorem ctx_no_newline (pageInfo : Option PageExtractionResult) (tab : BrowserTab)
    (hpi : ∀ r, pageInfo = some r → '\n' ∉ r.selection ∧ '\n' ∉ r.title ∧ '\n' ∉ r.url)
    (htu : ∀ u, tab.url = some u → '\n' ∉ u)
    (htt : ∀ t, tab.title = some t → '\n' ∉ t) :
    '\n' ∉ selectionOf pageInfo ∧ '\n' ∉ truncatedSelectionOf pageInfo ∧
      '\n' ∉ titleOf pageInfo tab ∧
      ∀ u, pageUrlOf pageInfo tab = some u → '\n' ∉ u := by
  have htabu : '\n' ∉ tab.url.getD [] := by
    cases ht : tab.url with
    | none => simp
    | some t => simpa using htu t ht
  have htabt : '\n' ∉ tab.title.getD [] := by
    cases ht : tab.title with
    | none => simp
    | some t => simpa using htt t ht
  have hraw : '\n' ∉ rawSelection pageInfo := by
    cases hp : pageInfo with
    | none => simp [rawSelection]
    | some r =>
      by_cases hs : r.success = true
      · simpa [rawSelection, hs] using (hpi r hp).1
      · simp [rawSelection, hs]
  have hsel : '\n' ∉ selectionOf pageInfo := fun hm => hraw (mem_of_mem_jsTrim hm)
  have htrunc : '\n' ∉ truncatedSelectionOf pageInfo := by
    rw [truncatedSelectionOf]
    split
    · exact hsel
    · exact fun hm => hsel (List.mem_of_mem_take (mem_of_mem_jsTrim hm))
  have hcand : '\n' ∉ titleCandidate pageInfo tab := by
    cases hp : pageInfo with
    | none => simpa [titleCandidate] using htabt
    | some r =>
      by_cases hs : r.success = true
      · simpa [titleCandidate, hs] using (hpi r hp).2.1
      · simpa [titleCandidate, hs] using htabt
  have htitle : '\n' ∉ titleOf pageInfo tab := fun hm => hcand (mem_of_mem_jsTrim hm)
  have hexu : '\n' ∉ extractedUrl pageInfo := by
    cases hp : pageInfo with
    | none => simp [extractedUrl]
    | some r =>
      by_cases hs : r.success = true
      · simpa [extractedUrl, hs] using (hpi r hp).2.2
      · simp [extractedUrl, hs]
  have hcand2 : '\n' ∉ pageUrlCandidate pageInfo tab := by
    rw [pageUrlCandidate, jsOrStr]
    split
    · exact htabu
    · exact hexu
  refine ⟨hsel, htrunc, htitle, ?_⟩
  intro u hu
  by_cases hc : (!(pageUrlCandidate pageInfo tab).isEmpty &&
      !(jsTrim (pageUrlCandidate pageInfo tab)).isEmpty) = true
  · rw [pageUrlOf, if_pos hc] at hu
    cases hu
    exact hcand2
  · rw [pageUrlOf, if_neg hc] at hu
    cases hu

/-- Claim C5 (amended): the selector itself never introduces a newline
outside the followup composite: when all snapshot, tab and language inputs
are newline-free, every non-null payload of a non-followup action is
newline-free.  (As stated the claim is false: inputs such as a multi-line
selection flow into the payload verbatim.) -/
theorem c5_no_injected_newline (pageInfo : Option PageExtractionResult)
    (tab : BrowserTab) (action : Action) (extras : BuildExtras) (p : Str)
    (ha : action ≠ .followup)
    (hpi : ∀ r, pageInfo = some r → '\n' ∉ r.selection ∧ '\n' ∉ r.title ∧ '\n' ∉ r.url)
    (htu : ∀ u, tab.url = some u → '\n' ∉ u)
    (htt : ∀ t, tab.title = some t → '\n' ∉ t)
    (hlang : ∀ L, extras.language = some L → '\n' ∉ L.code ∧ '\n' ∉ L.displayName)
    (hsp : selectPayload pageInfo tab action extras = some p) :
    '\n' ∉ p := by
  obtain ⟨hsel, htrunc, htitle, hurl⟩ := ctx_no_newline pageInfo tab hpi htu htt
  have hgetD : '\n' ∉ (pageUrlOf pageInfo tab).getD (truncatedSelectionOf pageInfo) := by
    cases hpu2 : pageUrlOf pageInfo tab with
    | none => simpa using htrunc
    | some u => simpa using hurl u hpu2
  cases action with
  | followup => exact absurd rfl ha
  | summary =>
    rw [selectPayload_summary] at hsp
    have hp2 := finishPayload_eq_some hsp
    rw [summaryPayload, ctx_selectionIsShort, ctx_pageIsLong, ctx_pageUrl, ctx_title,
      ctx_truncated, ctx_selection] at hp2
    split at hp2
    · cases hp2
      exact hsel
    · split at hp2
      · split at hp2
        · cases hp2
          exact not_mem_append (by decide) htitle
        · cases hp2
          exact hgetD
      · split at hp2
        · rename_i u heq
          split at hp2
          · cases hp2
            exact not_mem_append (by decide) (hurl u heq)
          · cases hp2
            exact not_mem_append (not_mem_append (not_mem_append (by decide) htitle)
              (by decide)) (hurl u heq)
        · split at hp2
          · cases hp2
            exact htrunc
          · split at hp2
            · cases hp2
              exact not_mem_append (by decide) htitle
            · exact Option.noConfusion hp2
  | translate =>
    rw [selectPayload_translate] at hsp
    cases hl : extras.language with
    | none =>
      rw [hl] at hsp
      simp [finishPayload] at hsp
    | some L =>
      rw [hl] at hsp
      have hsp2 : finishPayload (translatePayload (createPageContext pageInfo tab) L) =
          some p := hsp
      have hp2 := finishPayload_eq_some hsp2
      rw [translatePayload, ctx_selectionIsShort, ctx_pageUrl, ctx_title,
        ctx_hasSelection, ctx_selection, ctx_truncated] at hp2
      have hlab : '\n' ∉ languageLabelOf L := by
        rw [languageLabelOf]
        split
        · exact (hlang L hl).1
        · exact (hlang L hl).2
      split at hp2
      · cases hp2
        exact not_mem_append (not_mem_append (not_mem_append (by decide) hlab)
          (by decide)) hsel
      · split at hp2
        · rename_i u heq
          cases hp2
          exact not_mem_append (not_mem_append (not_mem_append (by decide) hlab)
            (by decide)) (hurl u heq)
        · split at hp2
          · cases hp2
            exact not_mem_append (not_mem_append (not_mem_append (by decide) hlab)
              (by decide)) htrunc
          · split at hp2
            · cases hp2
              exact not_mem_append (not_mem_append (not_mem_append (not_mem_append
                (by decide) htitle) (by decide)) hlab) (by decide)
            · cases hp2
              exact not_mem_append (not_mem_append (by decide) hlab) (by decide)
  | rewrite =>
    rw [selectPayload_rewrite] at hsp
    have hp2 := finishPayload_eq_some hsp
    rw [rewritePayload, ctx_selectionIsShort, ctx_pageUrl, ctx_title,
      ctx_hasSelection, ctx_selection, ctx_truncated] at hp2
    split at hp2
    · cases hp2
      exact not_mem_append (by decide) hsel
    · split at hp2
      · rename_i u heq
        split at hp2
        · cases hp2
          exact not_mem_append (by decide) (hurl u heq)
        · cases hp2
          exact not_mem_append (not_mem_append (not_mem_append (by decide) htitle)
            (by decide)) (hurl u heq)
      · split at hp2
        · cases hp2
          exact not_mem_append (by decide) htrunc
        · split at hp2
          · cases hp2
            exact not_mem_append (not_mem_append (by decide) htitle) (by decide)
          · exact Option.noConfusion hp2

/-- Witness for C5 (amended) at a simple newline-free snapshot. -/
theorem c5_no_injected_newline_witness :
    selectPayload (some ⟨true, str "Hello", 0, str "T", str "u"⟩)
      ⟨none, none, none⟩ .summary ⟨none, none⟩ = some (str "Hello") ∧
    '\n' ∉ str "Hello" :=
  ⟨by decide,
    c5_no_injected_newline (some ⟨true, str "Hello", 0, str "T", str "u"⟩)
      ⟨none, none, none⟩ .summary ⟨none, none⟩ (str "Hello") (by decide)
      (fun r h => by cases h; exact ⟨by decide, by decide, by decide⟩)
      (fun u h => by cases h) (fun t h => by cases h) (fun L h => by cases h)
      (by decide)⟩

/-! Round-trip of the URL encoding. -/

theorem hexVal_hexDigit : ∀ d : Nat, d < 16 → hexVal (hexDigit d) = some d := by
  decide

theorem char_toNat_lt (c : Char) : c.toNat < 1114112 := by
  have hv : Nat.isValidChar c.toNat := c.valid
  rcases hv with h | ⟨h1, h2⟩ <;> omega

theorem charOfCodepoint_toNat (c : Char) : charOfCodepoint c.toNat = some c := by
  have hv : Nat.isValidChar c.toNat := c.valid
  rw [charOfCodepoint, if_pos hv, Char.ofNat_toNat]

theorem utf8Bytes_lt {n : Nat} (hn : n < 1114112) : ∀ b ∈ utf8Bytes n, b < 256 := by
  intro b hb
  rw [utf8Bytes] at hb
  split_ifs at hb with h1 h2 h3
  · simp at hb
    omega
  · have hd : n / 64 < 32 := Nat.div_lt_of_lt_mul (by omega)
    have hm : n % 64 < 64 := Nat.mod_lt _ (by norm_num)
    simp at hb
    rcases hb with rfl | rfl <;> omega
  · have hd : n / 4096 < 16 := Nat.div_lt_of_lt_mul (by omega)
    have hm1 : n / 64 % 64 < 64 := Nat.mod_lt _ (by norm_num)
    have hm : n % 64 < 64 := Nat.mod_lt _ (by norm_num)
    simp at hb
    rcases hb with rfl | rfl | rfl <;> omega
  · have hd : n / 262144 < 5 := Nat.div_lt_of_lt_mul (by omega)
    have hm2 : n / 4096 % 64 < 64 := Nat.mod_lt _ (by norm_num)
    have hm1 : n / 64 % 64 < 64 := Nat.mod_lt _ (by norm_num)
    have hm : n % 64 < 64 := Nat.mod_lt _ (by norm_num)
    simp at hb
    rcases hb with rfl | rfl | rfl | rfl <;> omega

theorem pctDecode_pctByte (b : Nat) (hb : b < 256) (rest : Str) :
    pctDecodeBytes (pctByte b ++ rest) = (pctDecodeBytes rest).map (b :: ·) := by
  have h1 : hexVal (hexDigit (b / 16)) = some (b / 16) :=
    hexVal_hexDigit _ (Nat.div_lt_of_lt_mul (by omega))
  have h2 : hexVal (hexDigit (b % 16)) = some (b % 16) :=
    hexVal_hexDigit _ (Nat.mod_lt _ (by norm_num))
  have hb16 : 16 * (b / 16) + b % 16 = b := by omega
  show pctDecodeBytes ('%' :: hexDigit (b / 16) :: hexDigit (b % 16) :: rest) = _
  rw [pctDecodeBytes.eq_def]
  dsimp only
  rw [if_pos rfl, h1, h2]
  cases hrest : pctDecodeBytes rest with
  | none => rfl
  | some bs =>
    simp [hb16]

theorem unreserved_lt {c : Char} (h : unreservedURI c = true) :
    c.toNat < 128 ∧ c.toNat ≠ 37 := by
  rw [unreservedURI] at h
  simp only [Bool.or_eq_true, decide_eq_true_eq] at h
  omega

theorem pctDecode_block (bs : List Nat) (h : ∀ b ∈ bs, b < 256) (rest : Str) :
    pctDecodeBytes (bs.flatMap pctByte ++ rest) = (pctDecodeBytes rest).map (bs ++ ·) := by
  induction bs with
  | nil =>
    rw [List.flatMap_nil, List.nil_append]
    cases hrest : pctDecodeBytes rest <;> simp
  | cons b bs ih =>
    rw [List.flatMap_cons, List.append_assoc, pctDecode_pctByte b (h b (by simp)),
      ih fun x hx => h x (by simp [hx])]
    cases hrest : pctDecodeBytes rest <;> simp

theorem pctDecode_encodeChar (c : Char) (rest : Str) :
    pctDecodeBytes (encodeChar c ++ rest) =
      (pctDecodeBytes rest).map (utf8Bytes c.toNat ++ ·) := by
  rw [encodeChar]
  by_cases hu : unreservedURI c = true
  · rw [if_pos hu]
    obtain ⟨hlt, hne⟩ := unreserved_lt hu
    have hcp : ¬(c = '%') := by
      intro hc
      subst hc
      exact hne rfl
    rw [List.singleton_append]
    rw [pctDecodeBytes.eq_def]
    dsimp only
    rw [if_neg hcp,
      show utf8Bytes c.toNat = [c.toNat] from by rw [utf8Bytes, if_pos hlt]]
    cases hrest : pctDecodeBytes rest <;> simp
  · rw [if_neg hu]
    exact pctDecode_block _ (utf8Bytes_lt (char_toNat_lt c)) rest

theorem pctDecode_encode (l : Str) :
    pctDecodeBytes (encodeURIComponent l) =
      some (l.flatMap fun c => utf8Bytes c.toNat) := by
  induction l with
  | nil => rfl
  | cons c l ih =>
    rw [encodeURIComponent, List.flatMap_cons, pctDecode_encodeChar c,
      show List.flatMap l encodeChar = encodeURIComponent l from rfl, ih]
    simp

theorem utf8Decode_bytes (n : Nat) (hn : n < 1114112) (rest : List Nat) :
    utf8Decode (utf8Bytes n ++ rest) = (utf8Decode rest).map (n :: ·) := by
  rw [utf8Bytes]
  split_ifs with h1 h2 h3
  · rw [List.singleton_append, utf8Decode.eq_def]
    dsimp only
    rw [if_pos h1]
  · have hm : n % 64 < 64 := Nat.mod_lt _ (by norm_num)
    simp only [List.cons_append, List.nil_append]
    rw [utf8Decode.eq_def]
    dsimp only
    rw [if_neg (by omega), if_neg (by omega), if_pos (by omega),
      show isCont (128 + n % 64) = true from by
        rw [isCont]; simp only [decide_eq_true_eq]; omega,
      if_pos rfl,
      show 64 * (192 + n / 64 - 192) + (128 + n % 64 - 128) = n from by omega]
  · have hm1 : n / 64 % 64 < 64 := Nat.mod_lt _ (by norm_num)
    have hm : n % 64 < 64 := Nat.mod_lt _ (by norm_num)
    have hd : n / 4096 < 16 := Nat.div_lt_of_lt_mul (by omega)
    simp only [List.cons_append, List.nil_append]
    rw [utf8Decode.eq_def]
    dsimp only
    rw [if_neg (by omega), if_neg (by omega), if_neg (by omega), if_pos (by omega),
      show isCont (128 + n / 64 % 64) = true from by
        rw [isCont]; simp only [decide_eq_true_eq]; omega,
      show isCont (128 + n % 64) = true from by
        rw [isCont]; simp only [decide_eq_true_eq]; omega,
      show (true && true) = true from rfl, if_pos rfl,
      show 4096 * (224 + n / 4096 - 224) + 64 * (128 + n / 64 % 64 - 128) +
        (128 + n % 64 - 128) = n from by omega]
  · have hm2 : n / 4096 % 64 < 64 := Nat.mod_lt _ (by norm_num)
    have hm1 : n / 64 % 64 < 64 := Nat.mod_lt _ (by norm_num)
    have hm : n % 64 < 64 := Nat.mod_lt _ (by norm_num)
    have hd : n / 262144 < 5 := Nat.div_lt_of_lt_mul (by omega)
    simp only [List.cons_append, List.nil_append]
    rw [utf8Decode.eq_def]
    dsimp only
    rw [if_neg (by omega), if_neg (by omega), if_neg (by omega), if_neg (by omega),
      if_pos (by omega),
      show isCont (128 + n / 4096 % 64) = true from by
        rw [isCont]; simp only [decide_eq_true_eq]; omega,
      show isCont (128 + n / 64 % 64) = true from by
        rw [isCont]; simp only [decide_eq_true_eq]; omega,
      show isCont (128 + n % 64) = true from by
        rw [isCont]; simp only [decide_eq_true_eq]; omega,
      show (true && true && true) = true from rfl, if_pos rfl,
      show 262144 * (240 + n / 262144 - 240) + 4096 * (128 + n / 4096 % 64 - 128) +
        64 * (128 + n / 64 % 64 - 128) + (128 + n % 64 - 128) = n from by omega]

theorem utf8Decode_encode (l : Str) :
    utf8Decode (l.flatMap fun c => utf8Bytes c.toNat) = some (l.map Char.toNat) := by
  induction l with
  | nil => rfl
  | cons c l ih =>
    rw [List.flatMap_cons, utf8Decode_bytes _ (char_toNat_lt c), ih]
    simp

theorem charsOfCodepoints_map (l : Str) :
    charsOfCodepoints (l.map Char.toNat) = some l := by
  induction l with
  | nil => rfl
  | cons c l ih =>
    rw [List.map_cons]
    simp only [charsOfCodepoints]
    rw [charOfCodepoint_toNat, ih]

theorem decode_encode (l : Str) :
    decodeURIComponent (encodeURIComponent l) = some l := by
  simp only [decodeURIComponent]
  rw [pctDecode_encode]
  show (match utf8Decode (l.flatMap fun c => utf8Bytes c.toNat) with
    | none => none
    | some cps => charsOfCodepoints cps) = some l
  rw [utf8Decode_encode]
  exact charsOfCodepoints_map l

/-- Claim C3: buildProviderUrl concatenates the provider's base endpoint
(the perplexity endpoint when the requested provider is unregistered) with
the percent-encoding of the payload as a single query value; extracting and
percent-decoding the query parameter yields the payload back exactly. -/
theorem c3_url_roundtrip :
    (∀ p : Str, decodeURIComponent (encodeURIComponent p) = some p) ∧
    (∀ (pageInfo : Option PageExtractionResult) (tab : BrowserTab) (provider : Str)
      (action : Action) (extras : BuildExtras) (p : Str),
      selectPayload pageInfo tab action extras = some p →
      buildProviderUrl pageInfo tab provider action extras =
        some (providerBaseUrl provider ++ encodeURIComponent p)) ∧
    (∀ provider u, PROVIDER_URLS provider = some u → providerBaseUrl provider = u) ∧
    (∀ provider, PROVIDER_URLS provider = none →
      providerBaseUrl provider = str "https://www.perplexity.ai/search?q=") ∧
    (∀ base q : Str, (base ++ q).drop base.length = q) := by
  refine ⟨decode_encode, ?_, ?_, ?_, ?_⟩
  · intro pageInfo tab provider action extras p h
    rw [buildProviderUrl, h]
    rfl
  · intro provider u h
    rw [providerBaseUrl, h]
    rfl
  · intro provider h
    rw [providerBaseUrl, h]
    rfl
  · intro base q
    exact List.drop_left base q

/-- Witness for C3 at a payload with spaces, punctuation and a non-ASCII
character, and at the unregistered provider string "bogus". -/
theorem c3_url_roundtrip_witness :
    decodeURIComponent (encodeURIComponent (str "Hello, world? 100% é")) =
      some (str "Hello, world? 100% é") ∧
    buildProviderUrl (some ⟨true, str "Hi", 0, [], []⟩) ⟨none, none, none⟩
        (str "bogus") .summary ⟨none, none⟩ =
      some (providerBaseUrl (str "bogus") ++ encodeURIComponent (str "Hi")) ∧
    providerBaseUrl (str "bogus") = str "https://www.perplexity.ai/search?q=" :=
  ⟨c3_url_roundtrip.1 _,
    c3_url_roundtrip.2.1 _ _ _ _ _ _ (by decide),
    c3_url_roundtrip.2.2.2.1 _ (by decide)⟩

end ChatOnPage
